import Mathlib

/-!
Verification development for the scamp-go repository: a shallow embedding of
the service cache (src/scamp/service_stats.go), the discovery-record scanner
(DoScan), the connection packet router and Send (src/unnamed/part_000), and
the signature row-wrapping helper (src/scamp/service.go), together with
theorems settling the frozen claims about the specification.

Go maps are embedded as association lists with overwrite-on-insert semantics;
Go hash-map reads that return the zero value are embedded as Option lookups
with a getD default.  uint64 counters are embedded as Nat with explicit
reduction modulo 2^64 where the source increments them.
-/

namespace Scamp

/-- The uint64 modulus, used wherever the source performs uint64 arithmetic. -/
def u64Mod : Nat := 2 ^ 64

/-! ## Association lists: the embedding of Go maps -/

/-- Lookup in an association list: the embedding of a Go map read
(comma-ok form); returns none where Go reports ok = false. -/
def lookupA {κ β : Type} [DecidableEq κ] : List (κ × β) → κ → Option β
  | [], _ => none
  | (k, v) :: rest, key => if k = key then some v else lookupA rest key

/-- Insert-or-overwrite in an association list: the embedding of a Go map
assignment m[key] = v. -/
def insertA {κ β : Type} [DecidableEq κ] (l : List (κ × β)) (key : κ) (v : β) :
    List (κ × β) :=
  match l with
  | [] => [(key, v)]
  | (k, w) :: rest => if k = key then (key, v) :: rest else (k, w) :: insertA rest key v

/-- Deletion from an association list: the embedding of Go delete(m, key). -/
def eraseA {κ β : Type} [DecidableEq κ] : List (κ × β) → κ → List (κ × β)
  | [], _ => []
  | (k, w) :: rest, key => if k = key then rest else (k, w) :: eraseA rest key

theorem lookupA_insertA_self {κ β : Type} [DecidableEq κ] (l : List (κ × β)) (k : κ) (v : β) :
    lookupA (insertA l k v) k = some v := by
  induction l with
  | nil => simp [insertA, lookupA]
  | cons hd tl ih =>
    obtain ⟨k', w⟩ := hd
    by_cases h : k' = k
    · simp [insertA, h, lookupA]
    · simp [insertA, h, lookupA, ih]

theorem lookupA_insertA_ne {κ β : Type} [DecidableEq κ] (l : List (κ × β)) (k k' : κ) (v : β)
    (h : k ≠ k') : lookupA (insertA l k v) k' = lookupA l k' := by
  induction l with
  | nil => simp [insertA, lookupA, h]
  | cons hd tl ih =>
    obtain ⟨k'', w⟩ := hd
    by_cases h2 : k'' = k
    · subst h2
      simp [insertA, lookupA, h]
    · simp only [insertA, if_neg h2, lookupA]
      by_cases h3 : k'' = k'
      · simp [h3]
      · simp [h3, ih]

/-- A predicate preserved by every fold step is preserved by the fold. -/
theorem foldl_preserves {α σ : Type} (P : σ → Prop) (f : σ → α → σ)
    (hstep : ∀ s a, P s → P (f s a)) :
    ∀ (l : List α) (s : σ), P s → P (l.foldl f s) := by
  intro l
  induction l with
  | nil => intro s hs; exact hs
  | cons hd tl ih => intro s hs; exact ih (f s hd) (hstep s hd hs)

/-! ## Service cache data model (src/scamp/service_stats.go) -/

/-- One action of a service class, per the spec's ServiceProxy data model
(the ServiceProxy source file is not under src/; the cache code under src/
reads the fields ident, sector, classes, actions, version, protocols). -/
structure ProxyAction where
  actionName : String
  version : Int
  crudTags : String
deriving DecidableEq

/-- One class of a service, holding its actions. -/
structure ProxyClass where
  className : String
  actions : List ProxyAction
deriving DecidableEq

/-- Modelled from the spec: ServiceProxy (its defining source file is absent
from src/).  §3: ident, sector, classes, protocols, plus the raw certificate,
signature and class-records blobs retained from the parse. -/
structure ServiceProxy where
  ident : String
  sector : String
  classes : List ProxyClass
  protocols : List String
  certificate : String
  signature : String
  classRecordsRaw : String
deriving DecidableEq

/-- The ServiceCache state: path, the two indexes and the verification flag
(the mutex of the source is not part of the sequential embedding). -/
structure ServiceCache where
  path : String
  identIndex : List (String × ServiceProxy)
  actionIndex : List (String × List ServiceProxy)
  verifyRecords : Bool
deriving DecidableEq

/-- NewServiceCache: empty indexes, verifyRecords starts true. -/
def NewServiceCache (path : String) : ServiceCache :=
  { path := path, identIndex := [], actionIndex := [], verifyRecords := true }

/-- DisableRecordVerification exactly as in the source: it assigns
verifyRecords = true. -/
def DisableRecordVerification (cache : ServiceCache) : ServiceCache :=
  { cache with verifyRecords := true }

/-- EnableRecordVerification exactly as in the source: it assigns
verifyRecords = false. -/
def EnableRecordVerification (cache : ServiceCache) : ServiceCache :=
  { cache with verifyRecords := false }

/-- The munged action-index key built by storeNoLock:
fmt.Sprintf of sector : className . actionName ~ version # protocol. -/
def mungedName (sector className actionName : String) (version : Int) (protocol : String) :
    String :=
  sector ++ ":" ++ className ++ "." ++ actionName ++ "~" ++ toString version ++ "#" ++ protocol

/-- One Go-loop body of storeNoLock: append the proxy to the action index
entry under the munged key (fresh key starts from the empty list, matching
the source's ok = false branch which begins a singleton slice). -/
def insertAction (aIdx : List (String × List ServiceProxy)) (proxy : ServiceProxy)
    (key : String) : List (String × List ServiceProxy) :=
  insertA aIdx key ((lookupA aIdx key).getD [] ++ [proxy])

/-- storeNoLock: overwrite identIndex at the proxy's ident (the source's two
branches both assign the instance), then the three nested loops over classes,
actions and protocols appending the proxy under each munged key. -/
def storeNoLock (cache : ServiceCache) (proxy : ServiceProxy) : ServiceCache :=
  { cache with
    identIndex := insertA cache.identIndex proxy.ident proxy
    actionIndex :=
      proxy.classes.foldl (fun a1 cls =>
        cls.actions.foldl (fun a2 act =>
          proxy.protocols.foldl (fun a3 protocol =>
            insertAction a3 proxy
              (mungedName proxy.sector cls.className act.actionName act.version protocol))
            a2) a1) cache.actionIndex }

/-- removeNoLock: error when the ident is untracked, otherwise delete it from
identIndex (actionIndex is untouched). -/
def removeNoLock (cache : ServiceCache) (proxy : ServiceProxy) :
    Except String ServiceCache :=
  match lookupA cache.identIndex proxy.ident with
  | none => .error ("tried removing an ident which was not being tracked: " ++ proxy.ident)
  | some _ => .ok { cache with identIndex := eraseA cache.identIndex proxy.ident }

/-- clearNoLock: reset identIndex to a fresh empty map.  The source does not
touch actionIndex here. -/
def clearNoLock (cache : ServiceCache) : ServiceCache :=
  { cache with identIndex := [] }

/-- Retrieve: lookup in identIndex; none embeds the source's nil result. -/
def Retrieve (cache : ServiceCache) (ident : String) : Option ServiceProxy :=
  lookupA cache.identIndex ident

/-- SearchByAction: build the query key (note: no className component; the
caller passes the composite class.action) and read actionIndex, a missing key
giving the Go zero value nil, embedded as the empty list. -/
def SearchByAction (cache : ServiceCache) (sector action : String) (version : Int)
    (envelope : String) : List ServiceProxy :=
  (lookupA cache.actionIndex
    (sector ++ ":" ++ action ++ "~" ++ toString version ++ "#" ++ envelope)).getD []

/-- Size: the number of identIndex entries. -/
def Size (cache : ServiceCache) : Nat :=
  cache.identIndex.length

/-- All: the identIndex values (Go map iteration order is unspecified; the
embedding uses association-list order, and the theorems only use membership). -/
def All (cache : ServiceCache) : List ServiceProxy :=
  cache.identIndex.map (fun kv => kv.2)

/-- Store is storeNoLock under the cache mutex; the sequential embedding drops
the mutex. -/
def Store (cache : ServiceCache) (proxy : ServiceProxy) : ServiceCache :=
  storeNoLock cache proxy

/-- A sequence of Store operations applied left to right. -/
def storeAll (cache : ServiceCache) (ps : List ServiceProxy) : ServiceCache :=
  ps.foldl storeNoLock cache

/-! ## DoScan: the discovery-record scanner (src/scamp/service_stats.go)

The bufio.Scanner is embedded as the list of remaining lines; s.Scan()
pops the head, returning false on the empty list (in which case s.Bytes()
is nil, i.e. the empty line).  The result carries the cache state because
the source mutates the cache in place and returns it in every outcome. -/

/-- Outcome of DoScan: success, the Go error return, or a Go runtime panic
(the slice-bounds fault of the blob truncation), each carrying the cache as
mutated so far. -/
inductive ScanResult where
  | ok (cache : ServiceCache)
  | err (cache : ServiceCache) (msg : String)
  | fault (cache : ServiceCache) (msg : String)
deriving DecidableEq

/-- The slop loop of DoScan: scan lines until one equals the separator,
returning the lines after it, or none when the scanner is exhausted first
(didScan = false breaks the outer loop). -/
def dropToSep : List String → Option (List String)
  | [] => none
  | l :: ls => if l = "%%%" then some ls else dropToSep ls

/-- The certificate loop: accumulate lines until a blank line (consumed) or
scanner exhaustion; returns the accumulated lines and the rest. -/
def takeUntilBlank : List String → List String × List String
  | [] => ([], [])
  | l :: ls =>
    if l = "" then ([], ls)
    else
      let pr := takeUntilBlank ls
      (l :: pr.1, pr.2)

/-- The signature loop: accumulate lines until a blank line or a separator
line (either is consumed) or scanner exhaustion. -/
def takeUntilBlankOrSep : List String → List String × List String
  | [] => ([], [])
  | l :: ls =>
    if l = "" then ([], ls)
    else if l = "%%%" then ([], ls)
    else
      let pr := takeUntilBlankOrSep ls
      (l :: pr.1, pr.2)

/-- The bytes.Buffer accumulation: each line followed by a newline. -/
def joinLines (lines : List String) : String :=
  lines.foldl (fun b l => b ++ l ++ "\n") ""

/-- Modelled from the spec: the NewServiceProxy constructor and the
Validate signature check, whose defining source files are absent from src/.
§3 has the proxy built by the parser from the class-records, certificate and
signature blobs; §4.5 has Validate verify the signature over the raw class
records, failures excluding the proxy.  DoScan is parametrised over them;
their internals do not affect the scanning control flow under proof. -/
structure ProxyOracle where
  newProxy : String → String → String → Except String ServiceProxy
  validate : ServiceProxy → Option String

/-- One step of the DoScan outer loop after the separator and the
class-records line have been consumed: either the loop stops with a result,
or it continues with an updated cache on the remaining lines. -/
inductive ScanStep where
  | stop (r : ScanResult)
  | cont (cache : ServiceCache) (rest : List String)

/-- The body of one DoScan outer-loop iteration after the scan consuming the
class records: nl is the line that scan produced (the empty string when the
scanner was exhausted, as s.Bytes() is then nil) and rest3 the lines after
it.  It performs the blank-line check, the certificate and signature
accumulations with their slice-truncations (a Go panic when the buffer is
empty), proxy construction, optional validation with the error-ignored
removeNoLock, and the store. -/
def scanBlockCore (oracle : ProxyOracle) (cache : ServiceCache) (classRecordsRaw : String)
    (nl : String) (rest3 : List String) : ScanStep :=
  if nl ≠ "" then .stop (.err cache "expected newline after class records")
  else
    let certPr := takeUntilBlank rest3
    let certBuf := joinLines certPr.1
    if certBuf.length = 0 then .stop (.fault cache "slice bounds out of range")
    else
      let certRaw := certBuf.take (certBuf.length - 1)
      let sigPr := takeUntilBlankOrSep certPr.2
      let sigBuf := joinLines sigPr.1
      if sigBuf.length = 0 then .stop (.fault cache "slice bounds out of range")
      else
        let sigRaw := sigBuf.take (sigBuf.length - 1)
        match oracle.newProxy classRecordsRaw certRaw sigRaw with
        | .error e => .stop (.err cache ("NewServiceProxy: " ++ e))
        | .ok proxy =>
          if cache.verifyRecords then
            match oracle.validate proxy with
            | some _ =>
              match removeNoLock cache proxy with
              | .error _ => .cont cache sigPr.2
              | .ok cache' => .cont cache' sigPr.2
            | none => .cont (storeNoLock cache proxy) sigPr.2
          else .cont (storeNoLock cache proxy) sigPr.2

/-- The scan consuming the class records, feeding its outcome to the block
body: an exhausted scanner yields the empty token. -/
def scanBlock (oracle : ProxyOracle) (cache : ServiceCache) (classRecordsRaw : String)
    (rest2 : List String) : ScanStep :=
  match rest2 with
  | [] => scanBlockCore oracle cache classRecordsRaw "" []
  | nl :: rest3 => scanBlockCore oracle cache classRecordsRaw nl rest3

theorem dropToSep_length {ls rest : List String} (h : dropToSep ls = some rest) :
    rest.length < ls.length := by
  induction ls with
  | nil => simp [dropToSep] at h
  | cons l ls ih =>
    by_cases hl : l = "%%%"
    · simp [dropToSep, hl] at h
      subst h
      simp
    · simp only [dropToSep, if_neg hl] at h
      exact Nat.lt_trans (ih h) (by simp)

theorem takeUntilBlank_length (ls : List String) :
    (takeUntilBlank ls).2.length ≤ ls.length := by
  induction ls with
  | nil => simp [takeUntilBlank]
  | cons l ls ih =>
    by_cases hl : l = ""
    · simp [takeUntilBlank, hl]
    · simp only [takeUntilBlank, if_neg hl]
      exact Nat.le_succ_of_le ih

theorem takeUntilBlankOrSep_length (ls : List String) :
    (takeUntilBlankOrSep ls).2.length ≤ ls.length := by
  induction ls with
  | nil => simp [takeUntilBlankOrSep]
  | cons l ls ih =>
    by_cases hl : l = ""
    · simp [takeUntilBlankOrSep, hl]
    · by_cases hs : l = "%%%"
      · simp [takeUntilBlankOrSep, hl, hs]
      · simp only [takeUntilBlankOrSep, if_neg hl, if_neg hs]
        exact Nat.le_succ_of_le ih

theorem scanBlockCore_cont_length {oracle : ProxyOracle} {cache : ServiceCache}
    {cr nl : String} {rest3 : List String} {cache' : ServiceCache} {rest' : List String}
    (h : scanBlockCore oracle cache cr nl rest3 = .cont cache' rest') :
    rest'.length ≤ rest3.length := by
  have hchain : (takeUntilBlankOrSep (takeUntilBlank rest3).2).2.length ≤ rest3.length :=
    Nat.le_trans (takeUntilBlankOrSep_length (takeUntilBlank rest3).2)
      (takeUntilBlank_length rest3)
  unfold scanBlockCore at h
  dsimp only at h
  repeat' split at h
  all_goals simp at h
  all_goals exact h.2 ▸ hchain

theorem scanBlock_cont_length {oracle : ProxyOracle} {cache : ServiceCache}
    {cr : String} {rest2 : List String} {cache' : ServiceCache} {rest' : List String}
    (h : scanBlock oracle cache cr rest2 = .cont cache' rest') :
    rest'.length ≤ rest2.length := by
  cases rest2 with
  | nil =>
    have h' : scanBlockCore oracle cache cr "" [] = .cont cache' rest' := h
    exact scanBlockCore_cont_length h'
  | cons nl rest3 =>
    have h' : scanBlockCore oracle cache cr nl rest3 = .cont cache' rest' := h
    simp only [List.length_cons]
    exact Nat.le_succ_of_le (scanBlockCore_cont_length h')

/-- The DoScan outer loop: find the next separator, consume it and the
class-records line (an exhausted scanner or a blank line there ends the scan
cleanly), then run the block body and continue on what it leaves. -/
def doScanLoop (oracle : ProxyOracle) (cache : ServiceCache) (lines : List String) :
    ScanResult :=
  match h1 : dropToSep lines with
  | none => .ok cache
  | some [] => .ok cache
  | some (line :: rest2) =>
    if line = "" then .ok cache
    else
      match h3 : scanBlock oracle cache line rest2 with
      | .stop r => r
      | .cont cache' rest' => doScanLoop oracle cache' rest'
termination_by lines.length
decreasing_by
  have hlt := dropToSep_length h1
  have hle := scanBlock_cont_length h3
  simp only [List.length_cons] at hlt
  omega

/-- DoScan: clearNoLock (which resets only identIndex), then the scanning
loop over the file's lines. -/
def DoScan (oracle : ProxyOracle) (cache : ServiceCache) (lines : List String) :
    ScanResult :=
  doScanLoop oracle (clearNoLock cache) lines

/-- A fuel-indexed computation form of doScanLoop, structurally recursive so
that concrete runs reduce; doScanLoop_eq_doScanGo shows it agrees with
doScanLoop whenever the fuel exceeds the number of lines. -/
def doScanGo (oracle : ProxyOracle) : Nat → ServiceCache → List String → ScanResult
  | 0, cache, _ => .ok cache
  | fuel + 1, cache, lines =>
    match dropToSep lines with
    | none => .ok cache
    | some [] => .ok cache
    | some (line :: rest2) =>
      if line = "" then .ok cache
      else
        match scanBlock oracle cache line rest2 with
        | .stop r => r
        | .cont cache' rest' => doScanGo oracle fuel cache' rest'

theorem doScanLoop_eq_doScanGo (oracle : ProxyOracle) :
    ∀ (fuel : Nat) (cache : ServiceCache) (lines : List String),
      lines.length < fuel →
      doScanLoop oracle cache lines = doScanGo oracle fuel cache lines := by
  intro fuel
  induction fuel with
  | zero => intro cache lines h; omega
  | succ n ih =>
    intro cache lines h
    rw [doScanLoop]
    split
    · rename_i h1
      simp [doScanGo, h1]
    · rename_i h1
      simp [doScanGo, h1]
    · rename_i line rest2 h1
      by_cases hline : line = ""
      · simp [doScanGo, h1, hline]
      · rw [if_neg hline]
        split
        · rename_i r h3
          simp [doScanGo, h1, hline, h3]
        · rename_i cache2 rest3 h3
          have hlen : rest3.length < n := by
            have l1 := dropToSep_length h1
            have l2 := scanBlock_cont_length h3
            simp only [List.length_cons] at l1
            omega
          simp only [doScanGo, h1]
          rw [if_neg hline]
          simp only [h3]
          exact ih cache2 rest3 hlen

/-- Computation lemma: DoScan evaluates through the fuel-indexed form. -/
theorem DoScan_eval (oracle : ProxyOracle) (cache : ServiceCache) (lines : List String) :
    DoScan oracle cache lines = doScanGo oracle (lines.length + 1) (clearNoLock cache) lines := by
  unfold DoScan
  exact doScanLoop_eq_doScanGo oracle (lines.length + 1) (clearNoLock cache) lines (by omega)

/-- One outer-loop iteration of doScanLoop whose block stops the scan: the
scan's result is the block's result. -/
theorem doScanLoop_step_stop (oracle : ProxyOracle) (cache : ServiceCache)
    (lines rest : List String) (line : String) (r : ScanResult)
    (hds : dropToSep lines = some (line :: rest)) (hline : line ≠ "")
    (hsb : scanBlock oracle cache line rest = .stop r) :
    doScanLoop oracle cache lines = r := by
  rw [doScanLoop]
  split
  · rename_i h1
    rw [hds] at h1
    cases h1
  · rename_i h1
    rw [hds] at h1
    cases h1
  · rename_i line2 rest2 h1
    rw [hds] at h1
    injection h1 with h1
    injection h1 with hl hr
    subst hl
    subst hr
    rw [if_neg hline]
    split
    · rename_i r2 h3
      rw [hsb] at h3
      injection h3 with h3
      exact h3.symm
    · rename_i cache2 rest3 h3
      rw [hsb] at h3
      cases h3

/-- One outer-loop iteration of doScanLoop whose block continues: the scan
proceeds on the block's updated cache and remaining lines. -/
theorem doScanLoop_step_cont (oracle : ProxyOracle) (cache cache' : ServiceCache)
    (lines rest rest' : List String) (line : String)
    (hds : dropToSep lines = some (line :: rest)) (hline : line ≠ "")
    (hsb : scanBlock oracle cache line rest = .cont cache' rest') :
    doScanLoop oracle cache lines = doScanLoop oracle cache' rest' := by
  rw [doScanLoop]
  split
  · rename_i h1
    rw [hds] at h1
    cases h1
  · rename_i h1
    rw [hds] at h1
    cases h1
  · rename_i line2 rest2 h1
    rw [hds] at h1
    injection h1 with h1
    injection h1 with hl hr
    subst hl
    subst hr
    rw [if_neg hline]
    split
    · rename_i r2 h3
      rw [hsb] at h3
      cases h3
    · rename_i cache2 rest3 h3
      rw [hsb] at h3
      injection h3 with hc hr2
      subst hc
      subst hr2
      rfl

/-- The certificate loop consumes exactly the non-blank lines up to the
delimiting blank line. -/
theorem takeUntilBlank_append (ls rest : List String) (h : ∀ l ∈ ls, l ≠ "") :
    takeUntilBlank (ls ++ "" :: rest) = (ls, rest) := by
  induction ls with
  | nil => simp [takeUntilBlank]
  | cons l ls ih =>
    have hl : l ≠ "" := h l (List.mem_cons_self l ls)
    simp only [List.cons_append, takeUntilBlank, if_neg hl, List.append_eq]
    rw [ih (fun x hx => h x (List.mem_cons_of_mem l hx))]

/-- The signature loop consumes exactly the non-blank, non-separator lines up
to the delimiting blank line. -/
theorem takeUntilBlankOrSep_append (ls rest : List String)
    (h : ∀ l ∈ ls, l ≠ "" ∧ l ≠ "%%%") :
    takeUntilBlankOrSep (ls ++ "" :: rest) = (ls, rest) := by
  induction ls with
  | nil => simp [takeUntilBlankOrSep]
  | cons l ls ih =>
    obtain ⟨hl1, hl2⟩ := h l (List.mem_cons_self l ls)
    simp only [List.cons_append, takeUntilBlankOrSep, if_neg hl1, if_neg hl2, List.append_eq]
    rw [ih (fun x hx => h x (List.mem_cons_of_mem l hx))]

theorem joinLines_foldl_le : ∀ (ls : List String) (b : String),
    b.length ≤ (ls.foldl (fun b2 l => b2 ++ l ++ "\n") b).length := by
  intro ls
  induction ls with
  | nil => intro b; exact Nat.le_refl _
  | cons l ls ih =>
    intro b
    refine Nat.le_trans ?_ (ih (b ++ l ++ "\n"))
    simp only [String.length_append]
    omega

/-- The line accumulation of a non-empty line list is non-empty: every line
contributes at least its trailing newline. -/
theorem joinLines_length_pos (ls : List String) (h : ls ≠ []) :
    (joinLines ls).length ≠ 0 := by
  cases ls with
  | nil => exact absurd rfl h
  | cons l ls =>
    have hle := joinLines_foldl_le ls ("" ++ l ++ "\n")
    have hnl : ("\n" : String).length = 1 := rfl
    have hlen : ("" ++ l ++ "\n").length = l.length + 1 := by
      simp [String.length_append, hnl]
    unfold joinLines
    simp only [List.foldl_cons]
    omega

/-! ## Connection engine: packet routing and Send (src/unnamed/part_000)

The reader task is embedded as a sequential fold over the inbound packet
list; the write half is embedded as the list of packets written back, and
the delivery channel as the list of delivered messages.  The tee-debugging
path (enableWriteTee) is debug tooling and is embedded disabled, as in a
production build. -/

/-- The wire packet types. -/
inductive PacketType where
  | HEADER
  | DATA
  | EOF
  | TXERR
  | ACK
deriving DecidableEq

/-- The header record carried by HEADER packets (field names as read by
routePacket from pkt.packetHeader).  The envelope and message-type enums of
the missing codec source are embedded as strings. -/
structure PacketHeader where
  action : String
  envelope : String
  version : Int
  messageType : String
  requestId : Nat
  error : String
  errorCode : String
  ticket : String
deriving DecidableEq

/-- The zero value of PacketHeader, carried by packets the source constructs
with the header field left unset. -/
def emptyHeader : PacketHeader :=
  { action := "", envelope := "", version := 0, messageType := "", requestId := 0,
    error := "", errorCode := "", ticket := "" }

/-- A wire packet: type, msgNo and body, with the header record (meaningful
on HEADER packets; the zero value elsewhere, as in the source struct). -/
structure Packet where
  packetType : PacketType
  msgNo : Nat
  packetHeader : PacketHeader
  body : String
deriving DecidableEq

/-- Modelled from the spec: Message (its defining source file is absent from
src/).  §3: the header fields, an append-only body buffer and a cumulative
bytesWritten counter (u64), plus the error string set by TXERR handling. -/
structure Message where
  action : String
  envelope : String
  version : Int
  messageType : String
  requestId : Nat
  error : String
  errorCode : String
  ticket : String
  body : String
  bytesWritten : Nat
deriving DecidableEq

/-- Modelled from the spec: NewMessage yields the zero message. -/
def newMessage : Message :=
  { action := "", envelope := "", version := 0, messageType := "", requestId := 0,
    error := "", errorCode := "", ticket := "", body := "", bytesWritten := 0 }

/-- Modelled from the spec: msg.Write appends to the append-only body buffer
and advances the cumulative bytesWritten counter (u64 arithmetic). -/
def msgWrite (msg : Message) (b : String) : Message :=
  { msg with body := msg.body ++ b,
             bytesWritten := (msg.bytesWritten + b.length) % u64Mod }

/-- The message allocated by the HEADER case of routePacket: NewMessage with
the eight header fields copied out of the packet header via the setters. -/
def msgFromHeader (h : PacketHeader) : Message :=
  { newMessage with action := h.action, envelope := h.envelope, version := h.version,
                    messageType := h.messageType, requestId := h.requestId,
                    error := h.error, errorCode := h.errorCode, ticket := h.ticket }

/-- The connection state touched by the router and Send: the two msgNo
counters and the pending map pktToMsg. -/
structure ConnState where
  incomingmsgno : Nat
  outgoingmsgno : Nat
  pktToMsg : List (Nat × Message)
deriving DecidableEq

/-- The ACK packet written by ackBytes: type ACK, the msgNo, and the ASCII
decimal byte count as body (fmt.Sprintf of a u64). -/
def ackPacket (msgno : Nat) (unackedByteCount : Nat) : Packet :=
  { packetType := .ACK, msgNo := msgno, packetHeader := emptyHeader,
    body := Nat.repr unackedByteCount }

/-- Result of routePacket: an error (which breaks the PacketReaderLoop in
packetReader), or the updated state together with the packets written back
(ACKs) and the messages published to the delivery channel. -/
inductive RouteResult where
  | ok (conn : ConnState) (written : List Packet) (delivered : List Message)
  | err (e : String)
deriving DecidableEq

/-- routePacket: the per-type switch of the source.  HEADER checks sequence
then duplicates, allocates and increments; DATA appends and ACKs; EOF
delivers; TXERR records the error, appends, ACKs and delivers; ACK is
currently ignored. -/
def routePacket (conn : ConnState) (pkt : Packet) : RouteResult :=
  match pkt.packetType with
  | .HEADER =>
    if pkt.msgNo ≠ conn.incomingmsgno then
      .err ("out of sequence msgno: expected " ++ Nat.repr conn.incomingmsgno ++
        " but got " ++ Nat.repr pkt.msgNo)
    else
      match lookupA conn.pktToMsg pkt.msgNo with
      | some _ => .err ("Bad HEADER; already tracking msgno " ++ Nat.repr pkt.msgNo)
      | none =>
        .ok { conn with
                pktToMsg := insertA conn.pktToMsg pkt.msgNo (msgFromHeader pkt.packetHeader),
                incomingmsgno := (conn.incomingmsgno + 1) % u64Mod } [] []
  | .DATA =>
    match lookupA conn.pktToMsg pkt.msgNo with
    | none => .err ("not tracking message number " ++ Nat.repr pkt.msgNo)
    | some msg =>
      let msg' := msgWrite msg pkt.body
      .ok { conn with pktToMsg := insertA conn.pktToMsg pkt.msgNo msg' }
        [ackPacket pkt.msgNo msg'.bytesWritten] []
  | .EOF =>
    match lookupA conn.pktToMsg pkt.msgNo with
    | none => .err ("cannot process EOF for unknown msgno " ++ Nat.repr pkt.msgNo)
    | some msg =>
      .ok { conn with pktToMsg := eraseA conn.pktToMsg pkt.msgNo } [] [msg]
  | .TXERR =>
    match lookupA conn.pktToMsg pkt.msgNo with
    | none => .err ("cannot process EOF for unknown msgno " ++ Nat.repr pkt.msgNo)
    | some msg =>
      let msg1 :=
        if pkt.body.length > 0 then { msg with error := pkt.body }
        else { msg with error := "There was an unkown error with the connection" }
      let msg2 := msgWrite msg1 pkt.body
      .ok { conn with pktToMsg := eraseA conn.pktToMsg pkt.msgNo }
        [ackPacket pkt.msgNo msg2.bytesWritten] [msg2]
  | .ACK => .ok conn [] []

/-- Outcome of the reader loop over a list of inbound packets. -/
structure ReaderResult where
  final : ConnState
  written : List Packet
  delivered : List Message
  errored : Bool
deriving DecidableEq

/-- The PacketReaderLoop of packetReader: route packets in order; the first
routing error breaks the loop, leaving the remaining packets unprocessed
(after which the source closes the delivery channel). -/
def runReader (conn : ConnState) : List Packet → ReaderResult
  | [] => { final := conn, written := [], delivered := [], errored := false }
  | pkt :: rest =>
    match routePacket conn pkt with
    | .err _ => { final := conn, written := [], delivered := [], errored := true }
    | .ok conn' w d =>
      let r := runReader conn' rest
      { final := r.final, written := w ++ r.written, delivered := d ++ r.delivered,
        errored := r.errored }

/-! ### Send -/

/-- Modelled from the spec: msg.toPackets (its defining source file is absent
from src/).  §4.3: one HEADER carrying the header fields, zero or more DATA
packets whose bodies are contiguous chunks concatenating to the message body
(chunking policy is implementation-local; a single chunk is used for a
non-empty body), and one EOF. -/
def toPackets (msg : Message) (msgno : Nat) : List Packet :=
  let hdr : PacketHeader :=
    { action := msg.action, envelope := msg.envelope, version := msg.version,
      messageType := msg.messageType, requestId := msg.requestId, error := msg.error,
      errorCode := msg.errorCode, ticket := msg.ticket }
  ({ packetType := .HEADER, msgNo := msgno, packetHeader := hdr, body := "" } : Packet) ::
    (if msg.body.length = 0 then []
     else [{ packetType := .DATA, msgNo := msgno, packetHeader := emptyHeader,
             body := msg.body }]) ++
    [{ packetType := .EOF, msgNo := msgno, packetHeader := emptyHeader, body := "" }]

/-- The retry loop of Send around one packet write, step-indexed by fuel:
outcomes gives the success of each write attempt (numbered globally), and
the result is the attempt counter after the first success, or none when the
loop is still retrying after fuel attempts.  The source loop has no other
exit: a failed write is always retried. -/
def writeRetry (outcomes : Nat → Bool) (attempt : Nat) : Nat → Option Nat
  | 0 => none
  | fuel + 1 =>
    if outcomes attempt then some (attempt + 1)
    else writeRetry outcomes (attempt + 1) fuel

/-- Writing the packet sequence of one message, each packet through its retry
loop (fuel bounds each loop's observed attempts). -/
def sendPackets (outcomes : Nat → Bool) : Nat → List Packet → Nat → Option Nat
  | attempt, [], _ => some attempt
  | attempt, _ :: rest, fuel =>
    match writeRetry outcomes attempt fuel with
    | none => none
    | some attempt' => sendPackets outcomes attempt' rest fuel

/-- Outcome of Send: completion with the new state and the packets written,
the early error return, or hung: the retry loop still spinning after fuel
write attempts (the source loop never exits on its own on a dead stream). -/
inductive SendOutcome where
  | completed (conn : ConnState) (written : List Packet)
  | errored (e : String) (conn : ConnState) (written : List Packet)
  | hung
deriving DecidableEq

/-- Send: reject a zero RequestId before any state change or write; then
fetch outgoingmsgno, atomically add one (u64), build the packet sequence and
write each packet under the retry loop. -/
def send (conn : ConnState) (outcomes : Nat → Bool) (fuel : Nat) (msg : Message) :
    SendOutcome :=
  if msg.requestId = 0 then
    .errored "must specify ReqestId on msg before sending" conn []
  else
    let outgoingmsgno := conn.outgoingmsgno
    let conn' := { conn with outgoingmsgno := (outgoingmsgno + 1) % u64Mod }
    match sendPackets outcomes 0 (toPackets msg outgoingmsgno) fuel with
    | some _ => .completed conn' (toPackets msg outgoingmsgno)
    | none => .hung

/-! ## stringToRows (src/scamp/service.go)

Go strings are indexed by byte; the embedding uses lists of characters,
standing for the byte sequence. -/

/-- The wrapping loop of stringToRows: rows of 76 until at most 76 remain. -/
def chunkRows (substr : List Char) : List (List Char) :=
  if substr.length > 76 then substr.take 76 :: chunkRows (substr.drop 76)
  else [substr]
termination_by substr.length
decreasing_by
  simp only [List.length_drop]
  omega

/-- stringToRows: inputs of at most 76 bytes give the single-row output,
longer inputs run the wrapping loop.  The rowlen parameter is accepted and
never read, exactly as in the source. -/
def stringToRows (input : List Char) (rowlen : Nat) : List (List Char) :=
  if input.length ≤ 76 then [input]
  else chunkRows input

/-! ## Shared concrete sample values used by witnesses and counterexamples -/

/-- A fresh connection state: both counters zero, no pending messages. -/
def connZero : ConnState := { incomingmsgno := 0, outgoingmsgno := 0, pktToMsg := [] }

/-- A sample outbound message with a non-zero RequestId. -/
def sampleSendMsg : Message :=
  { newMessage with requestId := 42, action := "Foo.bar", body := "xy" }

/-! ## Helper lemmas for Send -/

/-- On a stream whose writes always fail, the retry loop never exits,
whatever the fuel. -/
theorem writeRetry_dead (outcomes : Nat → Bool) (hdead : ∀ n, outcomes n = false) :
    ∀ (fuel attempt : Nat), writeRetry outcomes attempt fuel = none := by
  intro fuel
  induction fuel with
  | zero => intro attempt; rfl
  | succ n ih => intro attempt; simp [writeRetry, hdead, ih]

/-! ## Claim theorems -/

/-- C1 (code_bug): the claim's intended semantics are Disable ⇒ verifyRecords
false and Enable ⇒ true, but the source has the two assignments swapped:
DisableRecordVerification assigns true and EnableRecordVerification assigns
false, as this evaluation of both functions on a fresh cache shows. -/
theorem disableEnableRecordVerification_swapped :
    (DisableRecordVerification (NewServiceCache "discovery")).verifyRecords = true ∧
    (EnableRecordVerification (NewServiceCache "discovery")).verifyRecords = false :=
  ⟨rfl, rfl⟩

/-- C8 (confirmed): Send on a message whose requestId is zero returns the
missing-RequestId error before touching anything: no packets are written and
the returned connection state is the input state unchanged, in particular
outgoingmsgno is not incremented. -/
theorem send_rejects_zero_requestId (conn : ConnState) (outcomes : Nat → Bool)
    (fuel : Nat) (msg : Message) (h : msg.requestId = 0) :
    send conn outcomes fuel msg =
      .errored "must specify ReqestId on msg before sending" conn [] := by
  simp [send, h]

/-- Witness for C8 at a concrete connection and message. -/
theorem send_rejects_zero_requestId_witness :
    send connZero (fun _ => true) 5 newMessage =
      .errored "must specify ReqestId on msg before sending" connZero [] :=
  send_rejects_zero_requestId connZero (fun _ => true) 5 newMessage rfl

set_option maxRecDepth 4096 in
/-- C4 (corrected, counterexample): the claim says a closed underlying stream
surfaces as a ConnectionClosed-style error that aborts the message's
remaining packets.  On a stream whose writes always fail — the observable
behaviour of a dead stream — Send is still inside its retry loop after 300
write attempts, having surfaced no error: the source retry loop has no
connection-close check and no error exit. -/
theorem send_dead_stream_counterexample :
    send connZero (fun _ => false) 300 sampleSendMsg = .hung := by
  decide

/-- C4 (amended): packet write failures in Send are retried unconditionally
and indefinitely; on a stream whose writes always fail, Send neither
completes nor surfaces any error within any number of write attempts. -/
theorem send_retries_forever_on_dead_stream (conn : ConnState) (outcomes : Nat → Bool)
    (fuel : Nat) (msg : Message) (hdead : ∀ n, outcomes n = false)
    (hreq : msg.requestId ≠ 0) :
    send conn outcomes fuel msg = .hung := by
  unfold send
  rw [if_neg hreq]
  simp only [toPackets, sendPackets, writeRetry_dead outcomes hdead]

/-- Witness for C4's amended theorem at a concrete connection, message and
fuel. -/
theorem send_retries_forever_on_dead_stream_witness :
    send connZero (fun _ => false) 7 sampleSendMsg = .hung :=
  send_retries_forever_on_dead_stream connZero (fun _ => false) 7 sampleSendMsg
    (fun _ => rfl) (by decide)

/-! ## Helper lemmas for stringToRows -/

theorem chunkRows_bound : ∀ (n : Nat) (l : List Char), l.length ≤ n →
    ∀ r ∈ chunkRows l, r.length ≤ 76 := by
  intro n
  induction n with
  | zero =>
    intro l hl r hr
    have hl0 : l.length = 0 := Nat.le_zero.mp hl
    rw [chunkRows] at hr
    rw [if_neg (by omega)] at hr
    simp at hr
    subst hr
    omega
  | succ n ih =>
    intro l hl r hr
    rw [chunkRows] at hr
    by_cases h : l.length > 76
    · rw [if_pos h] at hr
      rcases List.mem_cons.mp hr with hr | hr
      · subst hr
        simp
      · exact ih (l.drop 76) (by simp; omega) r hr
    · rw [if_neg h] at hr
      simp at hr
      subst hr
      omega

theorem chunkRows_flatten : ∀ (n : Nat) (l : List Char), l.length ≤ n →
    (chunkRows l).flatten = l := by
  intro n
  induction n with
  | zero =>
    intro l hl
    have hl0 : l.length = 0 := Nat.le_zero.mp hl
    rw [chunkRows]
    rw [if_neg (by omega)]
    simp
  | succ n ih =>
    intro l hl
    rw [chunkRows]
    by_cases h : l.length > 76
    · rw [if_pos h]
      have hd : (l.drop 76).length ≤ n := by simp; omega
      simp only [List.flatten_cons]
      rw [ih (l.drop 76) hd]
      exact List.take_append_drop 76 l
    · rw [if_neg h]
      simp

/-- C9 (confirmed): stringToRows splits any input into rows of at most 76
characters whose concatenation is the input, an input of at most 76
characters yields the single row equal to the input, and the rowlen
parameter is ignored (the output equals the output at any other rowlen,
here rowlen = 0). -/
theorem stringToRows_spec (input : List Char) (rowlen : Nat) :
    (∀ r ∈ stringToRows input rowlen, r.length ≤ 76) ∧
    (stringToRows input rowlen).flatten = input ∧
    (input.length ≤ 76 → stringToRows input rowlen = [input]) ∧
    stringToRows input rowlen = stringToRows input 0 := by
  refine ⟨?_, ?_, ?_, rfl⟩
  · intro r hr
    unfold stringToRows at hr
    by_cases h : input.length ≤ 76
    · rw [if_pos h] at hr
      simp at hr
      subst hr
      exact h
    · rw [if_neg h] at hr
      exact chunkRows_bound input.length input (Nat.le_refl _) r hr
  · unfold stringToRows
    by_cases h : input.length ≤ 76
    · rw [if_pos h]
      simp
    · rw [if_neg h]
      exact chunkRows_flatten input.length input (Nat.le_refl _)
  · intro h
    unfold stringToRows
    rw [if_pos h]

/-- Witness for C9 applying the single-row case at a concrete short input. -/
theorem stringToRows_spec_witness :
    stringToRows [ 'a', 'b' ] 9 = [ [ 'a', 'b' ] ] :=
  (stringToRows_spec [ 'a', 'b' ] 9).2.2.1 (by decide)

/-- C5 (confirmed): routing a HEADER packet: a msgNo differing from
incomingmsgno fails with the out-of-sequence error, which is fatal to the
read loop (runReader stops there, processing none of the remaining packets);
with the right msgNo but an already-tracked message it fails with the
duplicate-header error; otherwise a new Message carrying the packet header's
eight fields is inserted into the pending map and incomingmsgno is
incremented by one (uint64 arithmetic; the increment is atomic in the
source). -/
theorem routePacket_header_contract (conn : ConnState) (pkt : Packet)
    (rest : List Packet) (hty : pkt.packetType = .HEADER) :
    (pkt.msgNo ≠ conn.incomingmsgno →
      routePacket conn pkt =
        .err ("out of sequence msgno: expected " ++ Nat.repr conn.incomingmsgno ++
          " but got " ++ Nat.repr pkt.msgNo) ∧
      runReader conn (pkt :: rest) =
        { final := conn, written := [], delivered := [], errored := true }) ∧
    (pkt.msgNo = conn.incomingmsgno → ∀ m, lookupA conn.pktToMsg pkt.msgNo = some m →
      routePacket conn pkt =
        .err ("Bad HEADER; already tracking msgno " ++ Nat.repr pkt.msgNo)) ∧
    (pkt.msgNo = conn.incomingmsgno → lookupA conn.pktToMsg pkt.msgNo = none →
      routePacket conn pkt =
        .ok { conn with
                pktToMsg := insertA conn.pktToMsg pkt.msgNo (msgFromHeader pkt.packetHeader),
                incomingmsgno := (conn.incomingmsgno + 1) % u64Mod } [] []) := by
  refine ⟨?_, ?_, ?_⟩
  · intro hne
    constructor
    · simp [routePacket, hty, hne]
    · simp [runReader, routePacket, hty, hne]
  · intro heq m hm
    rw [heq] at hm
    simp [routePacket, hty, heq, hm]
  · intro heq hnone
    rw [heq] at hnone
    simp [routePacket, hty, heq, hnone]

/-- Witness for C5: the accepting case at a fresh connection and a HEADER
packet with msgNo 0. -/
theorem routePacket_header_contract_witness :
    routePacket connZero
        { packetType := .HEADER, msgNo := 0, packetHeader := emptyHeader, body := "" } =
      .ok { incomingmsgno := 1, outgoingmsgno := 0,
            pktToMsg := [ (0, msgFromHeader emptyHeader) ] } [] [] :=
  (routePacket_header_contract connZero
      { packetType := .HEADER, msgNo := 0, packetHeader := emptyHeader, body := "" }
      [] rfl).2.2 rfl rfl

/-- C6 (confirmed): routing a DATA packet for a tracked msgNo appends the
packet body to the message's buffer and writes back one ACK packet whose
msgNo is the packet's and whose body is the ASCII decimal rendering of the
message's new cumulative bytesWritten (uint64); in the reader loop this ACK
is emitted before any later inbound packet contributes to the write-back
stream. -/
theorem routePacket_data_ack (conn : ConnState) (pkt : Packet) (m : Message)
    (hty : pkt.packetType = .DATA) (hm : lookupA conn.pktToMsg pkt.msgNo = some m) :
    routePacket conn pkt =
      .ok { conn with pktToMsg := insertA conn.pktToMsg pkt.msgNo (msgWrite m pkt.body) }
        [ackPacket pkt.msgNo ((m.bytesWritten + pkt.body.length) % u64Mod)] [] ∧
    ∀ rest, (runReader conn (pkt :: rest)).written =
      ackPacket pkt.msgNo ((m.bytesWritten + pkt.body.length) % u64Mod) ::
        (runReader
          { conn with pktToMsg := insertA conn.pktToMsg pkt.msgNo (msgWrite m pkt.body) }
          rest).written := by
  have h1 : routePacket conn pkt =
      .ok { conn with pktToMsg := insertA conn.pktToMsg pkt.msgNo (msgWrite m pkt.body) }
        [ackPacket pkt.msgNo ((m.bytesWritten + pkt.body.length) % u64Mod)] [] := by
    simp [routePacket, hty, hm, msgWrite]
  refine ⟨h1, ?_⟩
  intro rest
  simp [runReader, h1]

/-- Witness for C6 at a connection tracking msgNo 0 with 3 bytes already
written and a DATA packet carrying 2 further bytes: the ACK body is the
decimal rendering of 5. -/
theorem routePacket_data_ack_witness :
    routePacket
        { incomingmsgno := 1, outgoingmsgno := 0,
          pktToMsg := [ (0, msgWrite (msgFromHeader emptyHeader) "abc") ] }
        { packetType := .DATA, msgNo := 0, packetHeader := emptyHeader, body := "de" } =
      .ok { incomingmsgno := 1, outgoingmsgno := 0,
            pktToMsg := [ (0, msgWrite (msgWrite (msgFromHeader emptyHeader) "abc") "de") ] }
        [ ackPacket 0 5 ] [] :=
  (routePacket_data_ack
      { incomingmsgno := 1, outgoingmsgno := 0,
        pktToMsg := [ (0, msgWrite (msgFromHeader emptyHeader) "abc") ] }
      { packetType := .DATA, msgNo := 0, packetHeader := emptyHeader, body := "de" }
      (msgWrite (msgFromHeader emptyHeader) "abc") rfl rfl).1

/-- C7 (confirmed): routing a TXERR packet for a tracked msgNo sets the
message's error to the body string when the body is non-empty and to the
source's default unknown-error string otherwise, appends the body to the
message buffer, writes back an ACK exactly as for DATA (decimal cumulative
bytesWritten), removes the message from the pending map and publishes it on
the delivery channel. -/
theorem routePacket_txerr_contract (conn : ConnState) (pkt : Packet) (m : Message)
    (hty : pkt.packetType = .TXERR) (hm : lookupA conn.pktToMsg pkt.msgNo = some m) :
    routePacket conn pkt =
      .ok { conn with pktToMsg := eraseA conn.pktToMsg pkt.msgNo }
        [ackPacket pkt.msgNo ((m.bytesWritten + pkt.body.length) % u64Mod)]
        [msgWrite
          (if pkt.body.length > 0 then { m with error := pkt.body }
           else { m with error := "There was an unkown error with the connection" })
          pkt.body] := by
  by_cases hb : pkt.body.length > 0
  · simp [routePacket, hty, hm, msgWrite, hb]
  · simp [routePacket, hty, hm, msgWrite, hb]

/-- Witness for C7 at a connection tracking msgNo 2 and a TXERR packet with
body boom. -/
theorem routePacket_txerr_contract_witness :
    routePacket
        { incomingmsgno := 3, outgoingmsgno := 0,
          pktToMsg := [ (2, msgWrite (msgFromHeader emptyHeader) "partial") ] }
        { packetType := .TXERR, msgNo := 2, packetHeader := emptyHeader, body := "boom" } =
      .ok { incomingmsgno := 3, outgoingmsgno := 0, pktToMsg := [] }
        [ ackPacket 2 11 ]
        [ msgWrite
            { msgWrite (msgFromHeader emptyHeader) "partial" with error := "boom" }
            "boom" ] :=
  routePacket_txerr_contract
    { incomingmsgno := 3, outgoingmsgno := 0,
      pktToMsg := [ (2, msgWrite (msgFromHeader emptyHeader) "partial") ] }
    { packetType := .TXERR, msgNo := 2, packetHeader := emptyHeader, body := "boom" }
    (msgWrite (msgFromHeader emptyHeader) "partial") rfl rfl

/-! ## Concrete material for the scanner claims -/

/-- The trailing-newline truncation applied to each accumulated blob (the
source's slice to length-1, defined here only on the non-panicking case). -/
def stripLastNewline (s : String) : String :=
  s.take (s.length - 1)

/-- The proxy the sample oracle builds from a class-records line and the two
truncated blobs. -/
def sampleProxy (cr certRaw sigRaw : String) : ServiceProxy :=
  { ident := cr, sector := "main",
    classes := [ { className := "Cls",
                   actions := [ { actionName := "do", version := 1,
                                  crudTags := "" } ] } ],
    protocols := [ "json" ],
    certificate := certRaw, signature := sigRaw, classRecordsRaw := cr }

/-- Modelled from the spec: a concrete instantiation of the proxy oracle for
evaluating DoScan.  Per §3 the proxy's identity, sector, classes and
protocols come from the class-records JSON; this oracle reads the
class-records line as the ident and fixes one class Cls with action do at
version 1 over protocol json, retaining the three blobs, and treats every
record as validly signed. -/
def sampleOracle : ProxyOracle :=
  { newProxy := fun cr cert sig => .ok (sampleProxy cr cert sig)
    validate := fun _ => none }

/-- Symbolic evaluation of one well-formed block body under the sample
oracle with verification off: class-records line, blank, a non-empty
certificate section of non-blank lines, blank, a non-empty signature
section of non-blank non-separator lines, blank; the block stores the
oracle's proxy and continues on the remaining lines. -/
theorem scanBlockCore_wellformed (cache : ServiceCache) (cr : String)
    (certLs sigLs tail : List String)
    (hver : cache.verifyRecords = false)
    (hcert : certLs ≠ []) (hcertNb : ∀ l ∈ certLs, l ≠ "")
    (hsig : sigLs ≠ []) (hsigNb : ∀ l ∈ sigLs, l ≠ "" ∧ l ≠ "%%%") :
    scanBlockCore sampleOracle cache cr "" (certLs ++ [""] ++ sigLs ++ [""] ++ tail) =
      .cont (storeNoLock cache
        (sampleProxy cr (stripLastNewline (joinLines certLs))
          (stripLastNewline (joinLines sigLs)))) tail := by
  have htb : takeUntilBlank (certLs ++ [""] ++ sigLs ++ [""] ++ tail) =
      (certLs, sigLs ++ [""] ++ tail) := by
    have h := takeUntilBlank_append certLs (sigLs ++ [""] ++ tail) hcertNb
    simpa using h
  have hts : takeUntilBlankOrSep (sigLs ++ [""] ++ tail) = (sigLs, tail) := by
    have h := takeUntilBlankOrSep_append sigLs tail hsigNb
    simpa using h
  unfold scanBlockCore
  rw [if_neg (by simp)]
  simp only [htb, hts]
  rw [if_neg (joinLines_length_pos certLs hcert)]
  rw [if_neg (joinLines_length_pos sigLs hsig)]
  simp [sampleOracle, stripLastNewline, hver]

/-- A cache file with one well-formed record block followed by a block whose
class-records line is not followed by a blank line (malformed). -/
def goodThenBadLines : List String :=
  [ "%%%", "record-one", "", "CERT-A", "", "SIG-A", "",
    "%%%", "record-two", "BAD" ]

/-- The proxy the sample oracle builds from the first block of
goodThenBadLines. -/
def proxyOne : ServiceProxy :=
  { ident := "record-one", sector := "main",
    classes := [ { className := "Cls",
                   actions := [ { actionName := "do", version := 1, crudTags := "" } ] } ],
    protocols := [ "json" ],
    certificate := "CERT-A", signature := "SIG-A", classRecordsRaw := "record-one" }

/-- A cache whose verification flag is off, as produced by the source's
EnableRecordVerification (which assigns false). -/
def scanStartCache : ServiceCache :=
  EnableRecordVerification (NewServiceCache "discovery.cache")

/-- The cache state DoScan leaves behind when it fails on the second block of
goodThenBadLines: the first block's proxy is already stored in both indexes. -/
def partialCache : ServiceCache :=
  { path := "discovery.cache",
    identIndex := [ ("record-one", proxyOne) ],
    actionIndex := [ ("main:Cls.do~1#json", [ proxyOne ]) ],
    verifyRecords := false }

/-- C2 (corrected, counterexample): the claim says that after a failed scan
no proxy parsed from the file is reachable.  On the concrete file
goodThenBadLines, DoScan returns the malformed-record error, yet the proxy
parsed from the first block is still reachable through Retrieve. -/
theorem doScan_discards_partial_cache_counterexample :
    DoScan sampleOracle scanStartCache goodThenBadLines =
      .err partialCache "expected newline after class records" ∧
    Retrieve partialCache "record-one" = some proxyOne := by
  rw [DoScan_eval]
  decide

/-- C2 (amended): a record block whose class-records line is not followed by
a blank line makes DoScan return the malformed-record error and abort
parsing, but the partially-built cache is retained rather than discarded:
for every well-formed leading record block (a non-blank class-records line,
then non-empty certificate and signature sections of non-blank lines, the
signature lines also non-separator) followed by such a malformed block, the
scan returns the error with the leading block's proxy still stored — it
remains reachable via Retrieve, Size, All and SearchByAction (proxy
construction per the spec-modelled sample oracle, verification off).
Malformed blocks with an empty certificate or signature section instead hit
the unguarded truncation and fault rather than returning an error, as C10
shows. -/
theorem doScan_aborts_but_retains_partial_cache
    (cr cr2 badLine : String) (certLs sigLs : List String)
    (hcr : cr ≠ "") (hcert : certLs ≠ []) (hcertNb : ∀ l ∈ certLs, l ≠ "")
    (hsig : sigLs ≠ []) (hsigNb : ∀ l ∈ sigLs, l ≠ "" ∧ l ≠ "%%%")
    (hcr2 : cr2 ≠ "") (hbad : badLine ≠ "") :
    ∃ (c' : ServiceCache) (pxy : ServiceProxy),
      DoScan sampleOracle scanStartCache
        ([ "%%%", cr, "" ] ++ certLs ++ [ "" ] ++ sigLs ++ [ "" ] ++
          [ "%%%", cr2, badLine ]) =
        .err c' "expected newline after class records" ∧
      pxy.ident = cr ∧
      Retrieve c' cr = some pxy ∧
      Size c' = 1 ∧
      pxy ∈ All c' ∧
      SearchByAction c' "main" "Cls.do" 1 "json" = [ pxy ] := by
  refine ⟨storeNoLock (clearNoLock scanStartCache)
      (sampleProxy cr (stripLastNewline (joinLines certLs))
        (stripLastNewline (joinLines sigLs))),
    sampleProxy cr (stripLastNewline (joinLines certLs))
      (stripLastNewline (joinLines sigLs)),
    ?_, rfl, ?_, ?_, ?_, ?_⟩
  · have hsb1 : scanBlock sampleOracle (clearNoLock scanStartCache) cr
        ("" :: (certLs ++ [ "" ] ++ sigLs ++ [ "" ] ++ [ "%%%", cr2, badLine ])) =
        .cont (storeNoLock (clearNoLock scanStartCache)
          (sampleProxy cr (stripLastNewline (joinLines certLs))
            (stripLastNewline (joinLines sigLs)))) [ "%%%", cr2, badLine ] :=
      scanBlockCore_wellformed (clearNoLock scanStartCache) cr certLs sigLs
        [ "%%%", cr2, badLine ] rfl hcert hcertNb hsig hsigNb
    have hds1 : dropToSep
        ([ "%%%", cr, "" ] ++ certLs ++ [ "" ] ++ sigLs ++ [ "" ] ++
          [ "%%%", cr2, badLine ]) =
        some (cr :: ("" :: (certLs ++ [ "" ] ++ sigLs ++ [ "" ] ++
          [ "%%%", cr2, badLine ]))) := by
      simp [dropToSep]
    have step1 := doScanLoop_step_cont _ _ _ _ _ _ _ hds1 hcr hsb1
    have hds2 : dropToSep [ "%%%", cr2, badLine ] = some (cr2 :: [ badLine ]) := by
      simp [dropToSep]
    have hsb2 : scanBlock sampleOracle
        (storeNoLock (clearNoLock scanStartCache)
          (sampleProxy cr (stripLastNewline (joinLines certLs))
            (stripLastNewline (joinLines sigLs)))) cr2 [ badLine ] =
        .stop (.err (storeNoLock (clearNoLock scanStartCache)
          (sampleProxy cr (stripLastNewline (joinLines certLs))
            (stripLastNewline (joinLines sigLs))))
          "expected newline after class records") := by
      simp [scanBlock, scanBlockCore, hbad]
    have step2 := doScanLoop_step_stop _ _ _ _ _ _ hds2 hcr2 hsb2
    exact step1.trans step2
  · simp [Retrieve, storeNoLock, clearNoLock, scanStartCache, EnableRecordVerification,
      NewServiceCache, insertA, lookupA, sampleProxy]
  · simp [Size, storeNoLock, clearNoLock, scanStartCache, EnableRecordVerification,
      NewServiceCache, insertA]
  · simp [All, storeNoLock, clearNoLock, scanStartCache, EnableRecordVerification,
      NewServiceCache, insertA]
  · have hkey : mungedName "main" "Cls" "do" 1 "json" =
        "main" ++ ":" ++ "Cls.do" ++ "~" ++ toString (1 : Int) ++ "#" ++ "json" := by
      decide
    simp only [SearchByAction, storeNoLock, clearNoLock, scanStartCache,
      EnableRecordVerification, NewServiceCache, sampleProxy, List.foldl_cons,
      List.foldl_nil, insertAction, insertA, lookupA, Option.getD_none, List.nil_append]
    rw [hkey]
    simp [lookupA, insertA]

/-- Witness for C2's amended theorem at the concrete file goodThenBadLines
(class-records line record-one, one certificate line, one signature line,
then the malformed second block). -/
theorem doScan_aborts_but_retains_partial_cache_witness :
    ∃ (c' : ServiceCache) (pxy : ServiceProxy),
      DoScan sampleOracle scanStartCache goodThenBadLines =
        .err c' "expected newline after class records" ∧
      pxy.ident = "record-one" ∧
      Retrieve c' "record-one" = some pxy ∧
      Size c' = 1 ∧
      pxy ∈ All c' ∧
      SearchByAction c' "main" "Cls.do" 1 "json" = [ pxy ] :=
  doScan_aborts_but_retains_partial_cache "record-one" "record-two" "BAD"
    [ "CERT-A" ] [ "SIG-A" ] (by decide) (by decide) (by decide) (by decide)
    (by decide) (by decide) (by decide)

/-- C10 (code_bug): the claim says DoScan never triggers a runtime fault
because the trailing-newline truncation is reached only with non-empty
buffers.  Evaluating DoScan at a file whose certificate section is empty
(end of file directly after the class-records blank line) reaches the
truncation with an empty buffer: the source's slice expression on the empty
certificate buffer with high bound length-1 = -1 is an out-of-range slice,
a runtime panic in Go, embedded as the fault outcome. -/
theorem doScan_empty_cert_section_fault :
    DoScan sampleOracle (NewServiceCache "discovery.cache") [ "%%%", "record-one", "" ] =
      .fault (NewServiceCache "discovery.cache") "slice bounds out of range" := by
  rw [DoScan_eval]
  decide

/-! ## The actionIndex/identIndex invariant (C3) -/

/-- A sample proxy with one class, one action and one protocol. -/
def proxyA : ServiceProxy :=
  { ident := "svc-a", sector := "main",
    classes := [ { className := "Cls",
                   actions := [ { actionName := "do", version := 1, crudTags := "" } ] } ],
    protocols := [ "json" ],
    certificate := "CERT", signature := "SIG", classRecordsRaw := "REC" }

/-- The cache after storing proxyA and then refreshing from an empty file:
clearNoLock emptied identIndex but actionIndex still holds proxyA. -/
def clearedCacheA : ServiceCache :=
  clearNoLock (Store (NewServiceCache "discovery.cache") proxyA)

/-- C3 (corrected, counterexample): the claim says the invariant also holds
after a Refresh.  Store proxyA, then run DoScan on an empty file (the body
of a Refresh of an empty cache file): the scan succeeds, yet proxyA is still
returned by SearchByAction while Retrieve of its ident now finds nothing,
because clearNoLock resets only identIndex. -/
theorem actionIndex_invariant_counterexample :
    DoScan sampleOracle (Store (NewServiceCache "discovery.cache") proxyA) [] =
      .ok clearedCacheA ∧
    proxyA ∈ SearchByAction clearedCacheA "main" "Cls.do" 1 "json" ∧
    Retrieve clearedCacheA "svc-a" = none := by
  rw [DoScan_eval]
  decide

/-- The invariant: every proxy reachable from actionIndex is present in
identIndex under its ident. -/
def goodCache (c : ServiceCache) : Prop :=
  ∀ k p, p ∈ (lookupA c.actionIndex k).getD [] → lookupA c.identIndex p.ident = some p

/-- Provenance of identIndex entries: every entry is one of the proxies of
ps, keyed by its own ident. -/
def identFrom (c : ServiceCache) (ps : List ServiceProxy) : Prop :=
  ∀ i p, lookupA c.identIndex i = some p → p ∈ ps ∧ p.ident = i

theorem insertAction_mem {aIdx : List (String × List ServiceProxy)} {q : ServiceProxy}
    {key k : String} {p : ServiceProxy}
    (hp : p ∈ (lookupA (insertAction aIdx q key) k).getD []) :
    p ∈ (lookupA aIdx k).getD [] ∨ p = q := by
  by_cases hk : key = k
  · subst hk
    rw [insertAction, lookupA_insertA_self] at hp
    simp only [Option.getD_some] at hp
    rcases List.mem_append.mp hp with h | h
    · exact Or.inl h
    · simp at h
      exact Or.inr h
  · rw [insertAction, lookupA_insertA_ne _ _ _ _ hk] at hp
    exact Or.inl hp

/-- Auxiliary predicate for the store fold: every actionIndex entry of aIdx
was an entry of base or is the proxy q being stored. -/
def actionSub (base : List (String × List ServiceProxy)) (q : ServiceProxy)
    (aIdx : List (String × List ServiceProxy)) : Prop :=
  ∀ k p, p ∈ (lookupA aIdx k).getD [] → p ∈ (lookupA base k).getD [] ∨ p = q

/-- Everything reachable from the actionIndex after a store was reachable
before, or is the stored proxy itself. -/
theorem storeNoLock_actionIndex_mem (cache : ServiceCache) (q : ServiceProxy)
    (k : String) (p : ServiceProxy)
    (hp : p ∈ (lookupA (storeNoLock cache q).actionIndex k).getD []) :
    p ∈ (lookupA cache.actionIndex k).getD [] ∨ p = q := by
  have hP : actionSub cache.actionIndex q (storeNoLock cache q).actionIndex := by
    show actionSub cache.actionIndex q
      (q.classes.foldl (fun a1 cls =>
        cls.actions.foldl (fun a2 act =>
          q.protocols.foldl (fun a3 protocol =>
            insertAction a3 q
              (mungedName q.sector cls.className act.actionName act.version protocol))
            a2) a1) cache.actionIndex)
    refine foldl_preserves (actionSub cache.actionIndex q) _ ?_ q.classes
      cache.actionIndex (fun k' p' hmem => Or.inl hmem)
    intro a1 cls h1
    refine foldl_preserves (actionSub cache.actionIndex q) _ ?_ cls.actions a1 h1
    intro a2 act h2
    refine foldl_preserves (actionSub cache.actionIndex q) _ ?_ q.protocols a2 h2
    intro a3 protocol h3 k' p' hp'
    rcases insertAction_mem hp' with hin | rfl
    · exact h3 k' p' hin
    · exact Or.inr rfl
  exact hP k p hp

/-- Storing a proxy whose ident is fresh (or already mapped to the same
proxy) preserves the invariant. -/
theorem storeNoLock_good (c : ServiceCache) (q : ServiceProxy)
    (hg : goodCache c)
    (hfresh : lookupA c.identIndex q.ident = none ∨ lookupA c.identIndex q.ident = some q) :
    goodCache (storeNoLock c q) := by
  intro k p hp
  have hid : (storeNoLock c q).identIndex = insertA c.identIndex q.ident q := rfl
  rcases storeNoLock_actionIndex_mem c q k p hp with hin | rfl
  · have hsome := hg k p hin
    by_cases hpq : p.ident = q.ident
    · rcases hfresh with hnone | hq
      · rw [hpq] at hsome
        rw [hsome] at hnone
        cases hnone
      · rw [hpq] at hsome
        rw [hsome] at hq
        injection hq with hpq2
        rw [hid, hpq, lookupA_insertA_self, hpq2]
    · rw [hid, lookupA_insertA_ne _ _ _ _ (fun he => hpq he.symm)]
      exact hsome
  · rw [hid, lookupA_insertA_self]

/-- Storing a proxy of ps preserves ident provenance. -/
theorem storeNoLock_identFrom (c : ServiceCache) (q : ServiceProxy)
    (ps : List ServiceProxy) (hi : identFrom c ps) (hq : q ∈ ps) :
    identFrom (storeNoLock c q) ps := by
  intro i p hlp
  have hid : (storeNoLock c q).identIndex = insertA c.identIndex q.ident q := rfl
  rw [hid] at hlp
  by_cases hik : q.ident = i
  · rw [← hik, lookupA_insertA_self] at hlp
    injection hlp with hlp
    subst hlp
    exact ⟨hq, hik⟩
  · rw [lookupA_insertA_ne _ _ _ _ hik] at hlp
    exact hi i p hlp

/-- The invariant and provenance both hold through any sequence of stores of
proxies drawn from an ident-distinct collection. -/
theorem storeAll_good (full : List ServiceProxy)
    (hdist : ∀ p ∈ full, ∀ q ∈ full, p.ident = q.ident → p = q) :
    ∀ (ps : List ServiceProxy), (∀ p ∈ ps, p ∈ full) →
      ∀ (c : ServiceCache), goodCache c → identFrom c full →
        goodCache (storeAll c ps) ∧ identFrom (storeAll c ps) full := by
  intro ps
  induction ps with
  | nil => intro _ c hg hi; exact ⟨hg, hi⟩
  | cons q ps ih =>
    intro hsub c hg hi
    have hq : q ∈ full := hsub q (List.mem_cons_self q ps)
    have hfresh :
        lookupA c.identIndex q.ident = none ∨ lookupA c.identIndex q.ident = some q := by
      cases hcase : lookupA c.identIndex q.ident with
      | none => exact Or.inl rfl
      | some p =>
        obtain ⟨hpfull, hpid⟩ := hi q.ident p hcase
        have hpq := hdist p hpfull q hq hpid
        subst hpq
        exact Or.inr rfl
    have hg' := storeNoLock_good c q hg hfresh
    have hi' := storeNoLock_identFrom c q full hi hq
    have hsub' : ∀ p ∈ ps, p ∈ full := fun p hp => hsub p (List.mem_cons_of_mem q hp)
    exact ih hsub' (storeNoLock c q) hg' hi'

/-- C3 (amended): after any sequence of Store operations on a fresh cache in
which distinct stored proxies carry distinct idents, every proxy returned by
SearchByAction is present in identIndex: Retrieve of its ident finds exactly
it.  The invariant does not extend to Refresh (whose clearNoLock step resets
identIndex but not actionIndex), to removals, or to ident overwrites. -/
theorem searchByAction_found_in_identIndex (path : String) (ps : List ServiceProxy)
    (hdist : ∀ p ∈ ps, ∀ q ∈ ps, p.ident = q.ident → p = q)
    (sector action : String) (version : Int) (envelope : String) (p : ServiceProxy)
    (hp : p ∈ SearchByAction (storeAll (NewServiceCache path) ps) sector action version
      envelope) :
    Retrieve (storeAll (NewServiceCache path) ps) p.ident = some p := by
  have hempty : goodCache (NewServiceCache path) := by
    intro k q hq
    simp [NewServiceCache, lookupA] at hq
  have hifrom : identFrom (NewServiceCache path) ps := by
    intro i q hq
    simp [NewServiceCache, lookupA] at hq
  have hgood :=
    (storeAll_good ps hdist ps (fun _ hx => hx) (NewServiceCache path) hempty hifrom).1
  exact hgood _ p hp

/-- Witness for C3's amended theorem: the single store of proxyA, whose
search result is retrievable by ident. -/
theorem searchByAction_found_in_identIndex_witness :
    Retrieve (storeAll (NewServiceCache "discovery.cache") [ proxyA ]) proxyA.ident =
      some proxyA :=
  searchByAction_found_in_identIndex "discovery.cache" [ proxyA ] (by decide)
    "main" "Cls.do" 1 "json" proxyA (by decide)

end Scamp
